import Mathlib

/-!
Shallow embedding of the phase-comparison analytics engine of
`src/app.py` (an SEO phase-comparison dashboard).

Conventions of the embedding:
* clicks, impressions and positions are rationals (`ℚ`); the source works
  on pandas numeric columns and the analytics never needs irrational values;
* pandas float results that can be NaN or infinite (the per-side CTR
  columns, built by `(clicks / impressions * 100).fillna(0)`) are modelled
  by `PFloat`, a rational extended with `inf`, `ninf` and `nan`, together
  with the pandas semantics of division by zero (`0/0 = NaN`, `x/0 = ±inf`)
  and of `fillna(0)` (replaces NaN only);
* dataframes become lists of row structures; `groupby('Top_Queries').agg`
  becomes sums / means over the rows whose query matches; the outer join
  with `fillna(0)` becomes zero-filled per-side aggregates.
-/

/-- Model of a pandas float cell: a finite rational, `+inf`, `-inf` or NaN.
NaN is a single value here and equals itself (value-level equality, not the
IEEE comparison operator). -/
inductive PFloat where
  | num (q : ℚ)
  | inf
  | ninf
  | nan
  deriving DecidableEq

namespace PFloat

/-- pandas / numpy division of two rational-valued cells:
`0/0 = NaN`, `x/0 = +inf` for `x > 0`, `-inf` for `x < 0`. -/
def pdiv (a b : ℚ) : PFloat :=
  if b = 0 then
    if a = 0 then nan else if a > 0 then inf else ninf
  else num (a / b)

/-- Multiplication of a cell by the positive constant 100
(as in `... * 100`): infinities and NaN are preserved. -/
def pscale100 : PFloat → PFloat
  | num q => num (q * 100)
  | inf => inf
  | ninf => ninf
  | nan => nan

/-- `fillna(0)`: replaces NaN by 0 and nothing else — in particular an
infinite cell passes through unchanged. -/
def fillna0 : PFloat → PFloat
  | nan => num 0
  | x => x

/-- Cell subtraction with the IEEE special cases
(`inf - inf = NaN`, NaN propagates). -/
def psub : PFloat → PFloat → PFloat
  | nan, _ => nan
  | _, nan => nan
  | num a, num b => num (a - b)
  | num _, inf => ninf
  | num _, ninf => inf
  | inf, num _ => inf
  | inf, inf => nan
  | inf, ninf => inf
  | ninf, num _ => ninf
  | ninf, inf => ninf
  | ninf, ninf => nan

/-- Cell negation (NaN stays NaN). -/
def pneg : PFloat → PFloat
  | num a => num (-a)
  | inf => ninf
  | ninf => inf
  | nan => nan

/-- IEEE comparison `x > c` against a finite constant:
false for NaN and `-inf`, true for `+inf`. -/
def pgtQ : PFloat → ℚ → Bool
  | num a, c => decide (a > c)
  | inf, _ => true
  | ninf, _ => false
  | nan, _ => false

/-- A cell holding a finite number. -/
def isFinite : PFloat → Bool
  | num _ => true
  | _ => false

theorem psub_comm_neg (x y : PFloat) : psub y x = pneg (psub x y) := by
  cases x <;> cases y <;> simp [psub, pneg]

end PFloat

/-- `MAX_RANK`: the lost-rank sentinel of `src/app.py`
(`MAX_RANK = 100`, lines 290/371/639). -/
def MAX_RANK : ℚ := 100

/-- `Series.replace(0, MAX_RANK)` applied to a position cell
(`src/app.py` lines 313-314): a position equal to 0 becomes 100. -/
def adjustPos (p : ℚ) : ℚ := if p = 0 then MAX_RANK else p

/-- `Pos_Delta` of a joined query row (`src/app.py` line 317):
sentinel-adjusted position of phase B minus that of phase A. -/
def posDelta (pos_a pos_b : ℚ) : ℚ := adjustPos pos_b - adjustPos pos_a

/-- Per-side CTR column of the joined query tables
(`src/app.py` lines 307-308 and 658-659):
`(clicks / impressions * 100).fillna(0)`. -/
def queryCTR (clicks impressions : ℚ) : PFloat :=
  PFloat.fillna0 (PFloat.pscale100 (PFloat.pdiv clicks impressions))

/-- The 8 tier labels produced by `categorize_tier_enhanced`
(`src/app.py` lines 403-432). -/
inductive Tier where
  | tierS_NewRank
  | tierSpp_Top3Win
  | tierSp_Jump10
  | tierA_Top10Solid
  | tierB_GeneralJump
  | declinerS_CrashLost
  | declinerA_Top10Drop
  | declinerB_GeneralDrop
  | noChange
  deriving DecidableEq

/-- `categorize_tier_enhanced(row)` (`src/app.py` lines 403-432): the
if-chain over `(Position_A, Position_B, Pos_Delta)`, where the `Pos_Delta`
column was computed by the sentinel rule (`posDelta`). -/
def categorize_tier_enhanced (pos_a pos_b : ℚ) : Tier :=
  if pos_a = 0 ∧ pos_b > 0 then .tierS_NewRank
  else if pos_b > 0 ∧ pos_b ≤ 3 ∧ pos_a > 3 then .tierSpp_Top3Win
  else if posDelta pos_a pos_b ≤ -10 then .tierSp_Jump10
  else if pos_b > 0 ∧ pos_b ≤ 10 ∧ posDelta pos_a pos_b ≤ -3 then .tierA_Top10Solid
  else if posDelta pos_a pos_b < 0 then .tierB_GeneralJump
  else if posDelta pos_a pos_b ≥ 10 then .declinerS_CrashLost
  else if pos_a ≤ 10 ∧ posDelta pos_a pos_b ≥ 3 then .declinerA_Top10Drop
  else if posDelta pos_a pos_b > 0 then .declinerB_GeneralDrop
  else .noChange

/-- The tier cascade as an explicit ordered list of (predicate, label)
pairs, one entry per row of the spec's §4.3 table, in the stated order. -/
def tierCascade : List ((ℚ → ℚ → Bool) × Tier) :=
  [ (fun a b => decide (a = 0) && decide (b > 0), .tierS_NewRank),
    (fun a b => decide (b > 0) && decide (b ≤ 3) && decide (a > 3), .tierSpp_Top3Win),
    (fun a b => decide (posDelta a b ≤ -10), .tierSp_Jump10),
    (fun a b => decide (b > 0) && decide (b ≤ 10) && decide (posDelta a b ≤ -3), .tierA_Top10Solid),
    (fun a b => decide (posDelta a b < 0), .tierB_GeneralJump),
    (fun a b => decide (posDelta a b ≥ 10), .declinerS_CrashLost),
    (fun a b => decide (a ≤ 10) && decide (posDelta a b ≥ 3), .declinerA_Top10Drop),
    (fun a b => decide (posDelta a b > 0), .declinerB_GeneralDrop) ]

/-- First-match evaluation of an ordered (predicate, label) cascade;
`No Change` when no predicate matches. -/
def firstMatchTier (pos_a pos_b : ℚ) : List ((ℚ → ℚ → Bool) × Tier) → Tier
  | [] => .noChange
  | (p, t) :: rest => if p pos_a pos_b then t else firstMatchTier pos_a pos_b rest

/-- One row of the scorecard's joined query table `st_merged`
(`src/app.py` lines 642-650): per-side aggregated clicks, impressions and
mean position, zero-filled by `fillna(0)` when the query is absent from a
side.  The same shape also carries Tab 2's `df_merged` (lines 296-301). -/
structure ScoreRow where
  clicksA : ℚ
  impsA : ℚ
  posA : ℚ
  clicksB : ℚ
  impsB : ℚ
  posB : ℚ
  deriving DecidableEq

namespace ScoreRow

/-- `Click_Delta` (`src/app.py` line 304). -/
def clickDelta (r : ScoreRow) : ℚ := r.clicksB - r.clicksA

/-- `Imp_Delta` (`src/app.py` lines 305 and 656). -/
def impDelta (r : ScoreRow) : ℚ := r.impsB - r.impsA

/-- `CTR_A` column (`src/app.py` lines 307 and 658). -/
def ctrA (r : ScoreRow) : PFloat := queryCTR r.clicksA r.impsA

/-- `CTR_B` column (`src/app.py` lines 308 and 659). -/
def ctrB (r : ScoreRow) : PFloat := queryCTR r.clicksB r.impsB

/-- `CTR_Delta = CTR_B - CTR_A` (`src/app.py` lines 309 and 660). -/
def ctrDelta (r : ScoreRow) : PFloat := PFloat.psub r.ctrB r.ctrA

/-- `Pos_Delta` column (`src/app.py` lines 653-655). -/
def pDelta (r : ScoreRow) : ℚ := posDelta r.posA r.posB

/-- Scorecard population membership (`src/app.py` line 663):
`Impressions_A > 0 or Impressions_B > 0`. -/
def inPopulation (r : ScoreRow) : Bool :=
  decide (r.impsA > 0) || decide (r.impsB > 0)

/-- Criterion 1, True Win (`src/app.py` lines 676-679):
`Pos_Delta < 0 and Imp_Delta > 0`. -/
def trueWinB (r : ScoreRow) : Bool :=
  decide (r.pDelta < 0) && decide (r.impDelta > 0)

/-- Criterion 2, Risk (`src/app.py` lines 685-688):
`CTR_Delta > 3 and Pos_Delta > 0`. -/
def riskB (r : ScoreRow) : Bool :=
  PFloat.pgtQ r.ctrDelta 3 && decide (r.pDelta > 0)

/-- Criterion 3, Wasted / Ineffective (`src/app.py` lines 694-697):
`CTR_Delta > 3 and Pos_Delta == 0`. -/
def wastedB (r : ScoreRow) : Bool :=
  PFloat.pgtQ r.ctrDelta 3 && decide (r.pDelta = 0)

end ScoreRow

/-- The four outcome categories of the scorecard's scatter view. -/
inductive Outcome where
  | trueWin
  | risk
  | wasted
  | others
  deriving DecidableEq

/-- `categorize_outcome(row)` (`src/app.py` lines 835-839): the priority
if-chain True Win > Risk > Wasted > Others over the same conditions as the
three scorecard criteria. -/
def categorize_outcome (r : ScoreRow) : Outcome :=
  if r.trueWinB then .trueWin
  else if r.riskB then .risk
  else if r.wastedB then .wasted
  else .others

/-- One row of the `Top_Queries` fact table after the domain filter
(`src/app.py` line 147): phase identifier, query text and metrics. -/
structure QRow where
  phase : ℕ
  query : String
  clicks : ℚ
  impressions : ℚ
  position : ℚ

/-- `df_q[df_q['Phase_id'] == phase_id]` (`src/app.py` lines 278, 642, 646). -/
def phaseRows (rows : List QRow) (pid : ℕ) : List QRow :=
  rows.filter (fun r => r.phase = pid)

/-- The group of a query inside one phase:
the rows `groupby('Top_Queries')` collects for key `q`. -/
def qGroup (rows : List QRow) (pid : ℕ) (q : String) : List QRow :=
  (phaseRows rows pid).filter (fun r => r.query = q)

/-- Aggregated clicks of a query in a phase (`'Clicks': 'sum'`);
0 when the query is absent, matching the outer join's `fillna(0)`. -/
def aggClicks (rows : List QRow) (pid : ℕ) (q : String) : ℚ :=
  ((qGroup rows pid q).map QRow.clicks).sum

/-- Aggregated impressions (`'Impressions': 'sum'`); 0 when absent. -/
def aggImps (rows : List QRow) (pid : ℕ) (q : String) : ℚ :=
  ((qGroup rows pid q).map QRow.impressions).sum

/-- Aggregated mean position (`'Position': 'mean'`): sum over group size.
When the query is absent from the phase the group is empty and the value
is 0, matching the outer join's `fillna(0)` of the missing side
(the `ℚ` convention `x / 0 = 0` gives exactly the zero-fill). -/
def aggPos (rows : List QRow) (pid : ℕ) (q : String) : ℚ :=
  ((qGroup rows pid q).map QRow.position).sum / (qGroup rows pid q).length

/-- The joined row of query `q` for the phase pair `(pidA, pidB)`:
`pd.merge(st_df_a, st_df_b, on='Top_Queries', how='outer').fillna(0)`
(`src/app.py` lines 296-301 and 650). -/
def mergedScoreRow (rows : List QRow) (pidA pidB : ℕ) (q : String) : ScoreRow :=
  { clicksA := aggClicks rows pidA q
    impsA := aggImps rows pidA q
    posA := aggPos rows pidA q
    clicksB := aggClicks rows pidB q
    impsB := aggImps rows pidB q
    posB := aggPos rows pidB q }

/-- The key set of the outer join: every query present in phase A or in
phase B. -/
def mergedQueries (rows : List QRow) (pidA pidB : ℕ) : List String :=
  ((phaseRows rows pidA).map QRow.query ++ (phaseRows rows pidB).map QRow.query).dedup

/-- One row of the `GSC` daily fact table after the domain filter
(`src/app.py` line 146). -/
structure GRow where
  phase : ℕ
  clicks : ℚ
  impressions : ℚ
  position : ℚ

/-- The result record of `calculate_phase_metrics`
(`src/app.py` lines 84-90).  `position` is a `PFloat` because
`Series.mean()` of an empty column is NaN. -/
structure PhaseMetrics where
  clicks : ℚ
  impressions : ℚ
  position : PFloat
  ctr : ℚ
  deriving DecidableEq

/-- `calculate_phase_metrics(phase_id, df)` (`src/app.py` lines 76-90):
filter to the phase, sum clicks and impressions (pandas `sum()` of an
empty column is 0), take the unweighted mean position (NaN when there are
no rows), and derive CTR with an explicit zero-denominator guard. -/
def calculate_phase_metrics (pid : ℕ) (df : List GRow) : PhaseMetrics :=
  let dfPhase := df.filter (fun r => r.phase = pid)
  let totalClicks := (dfPhase.map GRow.clicks).sum
  let totalImpressions := (dfPhase.map GRow.impressions).sum
  { clicks := totalClicks
    impressions := totalImpressions
    position :=
      if dfPhase.length = 0 then .nan
      else .num ((dfPhase.map GRow.position).sum / dfPhase.length)
    ctr := if totalImpressions > 0 then totalClicks / totalImpressions * 100 else 0 }

/-- `true_wins_df` (`src/app.py` lines 676-679): the True Win rows of the
scorecard population. -/
def trueWinRows (rows : List ScoreRow) : List ScoreRow :=
  rows.filter ScoreRow.trueWinB

/-- `risky_df` (`src/app.py` lines 685-688): the Risk rows. -/
def riskRows (rows : List ScoreRow) : List ScoreRow :=
  rows.filter ScoreRow.riskB

/-- `avg_win_depth = abs(true_wins_df['Pos_Delta'].mean()) if not
true_wins_df.empty else 0` (`src/app.py` line 745). -/
def avg_win_depth (rows : List ScoreRow) : ℚ :=
  if trueWinRows rows = [] then 0
  else |((trueWinRows rows).map ScoreRow.pDelta).sum / (trueWinRows rows).length|

/-- `avg_loss_depth = risky_df['Pos_Delta'].mean() if not risky_df.empty
else 0` (`src/app.py` line 747). -/
def avg_loss_depth (rows : List ScoreRow) : ℚ :=
  if riskRows rows = [] then 0
  else ((riskRows rows).map ScoreRow.pDelta).sum / (riskRows rows).length

/-- `is_crash = avg_loss_depth > (avg_win_depth * 1.5)`
(`src/app.py` line 766). -/
def is_crash (rows : List ScoreRow) : Bool :=
  decide (avg_loss_depth rows > avg_win_depth rows * (3 / 2 : ℚ))

/-- The spec's definition of average True-Win depth:
`mean(|Pos_Delta|)` over True Win rows, 0 if that set is empty. -/
def specAvgWinDepth (rows : List ScoreRow) : ℚ :=
  if trueWinRows rows = [] then 0
  else ((trueWinRows rows).map (fun r => |r.pDelta|)).sum / (trueWinRows rows).length

/-- Count of scorecard rows in one outcome category. -/
def countOutcome (rows : List ScoreRow) (c : Outcome) : ℕ :=
  (rows.filter (fun r => categorize_outcome r = c)).length

/-- Rate of one outcome category: `count / total_queries * 100`. -/
def outcomeRate (rows : List ScoreRow) (c : Outcome) : ℚ :=
  (countOutcome rows c : ℚ) / (rows.length : ℚ) * 100

/-- First-match evaluation of the outcome cascade
True Win > Risk > Wasted, defaulting to Others. -/
def firstMatchOutcome (r : ScoreRow) : List ((ScoreRow → Bool) × Outcome) → Outcome
  | [] => .others
  | (p, c) :: rest => if p r then c else firstMatchOutcome r rest

/-- The outcome cascade in the spec's priority order. -/
def outcomeCascade : List ((ScoreRow → Bool) × Outcome) :=
  [ (ScoreRow.trueWinB, .trueWin), (ScoreRow.riskB, .risk), (ScoreRow.wastedB, .wasted) ]

/-- A strictly positive position is not the sentinel case. -/
theorem adjustPos_of_pos {p : ℚ} (h : 0 < p) : adjustPos p = p := by
  unfold adjustPos
  rw [if_neg (by linarith)]

theorem adjustPos_zero : adjustPos 0 = 100 := by
  unfold adjustPos MAX_RANK
  simp

/-- `replace(0, MAX_RANK)` agrees with the spec's conditional form
`p if p > 0 else 100` on every non-negative position. -/
theorem adjustPos_spec_form {p : ℚ} (h : 0 ≤ p) :
    adjustPos p = if p > 0 then p else 100 := by
  rcases eq_or_lt_of_le h with h0 | h0
  · rw [← h0, adjustPos_zero, if_neg (lt_irrefl 0)]
  · rw [adjustPos_of_pos h0, if_pos h0]

/-- C1: for every joined row the position delta follows the lost-rank
sentinel rule `posA' = posA if posA > 0 else 100`,
`posB' = posB if posB > 0 else 100`, `Pos_Delta = posB' - posA'`; the
delta is negative exactly when the sentinel-adjusted rank improved and
positive exactly when it worsened, and raw zeros are never subtracted
directly: `posA = 0, posB = 5` gives `-95` and `posA = 3, posB = 0`
gives `+97`. -/
theorem C1_pos_delta_sentinel_rule :
    (∀ pos_a pos_b : ℚ, 0 ≤ pos_a → 0 ≤ pos_b →
      posDelta pos_a pos_b =
        (if pos_b > 0 then pos_b else 100) - (if pos_a > 0 then pos_a else 100) ∧
      (posDelta pos_a pos_b < 0 ↔ adjustPos pos_b < adjustPos pos_a) ∧
      (0 < posDelta pos_a pos_b ↔ adjustPos pos_a < adjustPos pos_b)) ∧
    posDelta 0 5 = -95 ∧ posDelta 3 0 = 97 := by
  refine ⟨fun pos_a pos_b ha hb => ⟨?_, ?_, ?_⟩, ?_, ?_⟩
  · rw [posDelta, adjustPos_spec_form ha, adjustPos_spec_form hb]
  · exact sub_neg
  · exact sub_pos
  · norm_num [posDelta, adjustPos, MAX_RANK]
  · norm_num [posDelta, adjustPos, MAX_RANK]

/-- C1 witness: the sentinel rule evaluated at the concrete lost-rank
input `posA = 3, posB = 0`. -/
theorem C1_pos_delta_sentinel_rule_witness :
    posDelta 3 0 = (if (0 : ℚ) > 0 then 0 else 100) - (if (3 : ℚ) > 0 then 3 else 100) :=
  (C1_pos_delta_sentinel_rule.1 3 0 (by norm_num) (by norm_num)).1

/-- C2: on every row passing the pre-filter (not both positions 0) the
tier classifier is the first-match evaluation of the 8-entry ordered
cascade and assigns exactly one label; in particular `posA = 0, posB = 5`
is labeled Tier S (New Rank) although its delta `-95` also satisfies the
later Tier S+ predicate `Pos_Delta ≤ -10`. -/
theorem C2_tier_cascade_first_match :
    (∀ pos_a pos_b : ℚ, ¬(pos_a = 0 ∧ pos_b = 0) →
      categorize_tier_enhanced pos_a pos_b = firstMatchTier pos_a pos_b tierCascade ∧
      ∃! t : Tier, categorize_tier_enhanced pos_a pos_b = t) ∧
    categorize_tier_enhanced 0 5 = .tierS_NewRank ∧ posDelta 0 5 ≤ -10 := by
  refine ⟨fun pos_a pos_b _ => ⟨?_, ⟨_, rfl, fun y hy => hy.symm⟩⟩, ?_, ?_⟩
  · simp only [categorize_tier_enhanced, tierCascade, firstMatchTier,
      Bool.and_eq_true, decide_eq_true_eq, and_assoc]
  · norm_num [categorize_tier_enhanced, posDelta, adjustPos, MAX_RANK]
  · norm_num [posDelta, adjustPos, MAX_RANK]

/-- C2 witness: the cascade equivalence evaluated at the concrete
pre-filtered input `posA = 0, posB = 5`. -/
theorem C2_tier_cascade_first_match_witness :
    categorize_tier_enhanced 0 5 = firstMatchTier 0 5 tierCascade :=
  ((C2_tier_cascade_first_match.1 0 5 (by norm_num)).1)

/-- C9: implicit sign invariants of the tier cascade — the improvement
tiers S++, S+, A and B force `Pos_Delta < 0`, the three decliner tiers
force `Pos_Delta > 0`, and `No Change` forces `Pos_Delta = 0`; Tier S
(New Rank) is the exception that does not constrain the sign: a row with
`posA = 0` and `posB ≥ 100` is labeled Tier S with `Pos_Delta ≥ 0`. -/
theorem C9_tier_sign_invariants :
    (∀ pos_a pos_b : ℚ,
      ((categorize_tier_enhanced pos_a pos_b = .tierSpp_Top3Win ∨
        categorize_tier_enhanced pos_a pos_b = .tierSp_Jump10 ∨
        categorize_tier_enhanced pos_a pos_b = .tierA_Top10Solid ∨
        categorize_tier_enhanced pos_a pos_b = .tierB_GeneralJump) →
        posDelta pos_a pos_b < 0) ∧
      ((categorize_tier_enhanced pos_a pos_b = .declinerS_CrashLost ∨
        categorize_tier_enhanced pos_a pos_b = .declinerA_Top10Drop ∨
        categorize_tier_enhanced pos_a pos_b = .declinerB_GeneralDrop) →
        0 < posDelta pos_a pos_b) ∧
      (categorize_tier_enhanced pos_a pos_b = .noChange → posDelta pos_a pos_b = 0)) ∧
    (∀ pos_b : ℚ, 100 ≤ pos_b →
      categorize_tier_enhanced 0 pos_b = .tierS_NewRank ∧ 0 ≤ posDelta 0 pos_b) := by
  constructor
  · intro pos_a pos_b
    unfold categorize_tier_enhanced
    split_ifs with h1 h2 h3 h4 h5 h6 h7 h8 <;>
      refine ⟨fun hc => ?_, fun hc => ?_, fun hc => ?_⟩ <;>
      try simp at hc
    all_goals first
      | exact h5
      | exact h8
      | linarith
      | linarith [h4.2.2]
      | linarith [h7.2]
      | (obtain ⟨hb1, hb2, hb3⟩ := h2
         rw [posDelta, adjustPos_of_pos hb1,
           adjustPos_of_pos (show (0:ℚ) < pos_a by linarith)]
         linarith)
  · intro pos_b hb
    have hb0 : (0:ℚ) < pos_b := by linarith
    constructor
    · unfold categorize_tier_enhanced
      rw [if_pos ⟨rfl, hb0⟩]
    · rw [posDelta, adjustPos_zero, adjustPos_of_pos hb0]
      linarith

/-- C9 witness: at `posA = 0, posB = 150` the row is Tier S (New Rank)
with a non-negative (here strictly worsened-looking) `Pos_Delta`. -/
theorem C9_tier_sign_invariants_witness :
    categorize_tier_enhanced 0 150 = .tierS_NewRank ∧ 0 ≤ posDelta 0 150 :=
  C9_tier_sign_invariants.2 150 (by norm_num)

/-- C3 counterexample: the claim asserts some scorecard-population row
satisfies more than one of the three effectiveness criteria; in fact no
row can, because True Win, Risk and Wasted require `Pos_Delta < 0`,
`Pos_Delta > 0` and `Pos_Delta = 0` respectively. -/
theorem C3_counterexample_no_overlap :
    ¬ ∃ r : ScoreRow, r.inPopulation = true ∧
      ((r.trueWinB = true ∧ r.riskB = true) ∨
       (r.trueWinB = true ∧ r.wastedB = true) ∨
       (r.riskB = true ∧ r.wastedB = true)) := by
  rintro ⟨r, -, h⟩
  rcases h with ⟨h1, h2⟩ | ⟨h1, h2⟩ | ⟨h1, h2⟩ <;>
    simp only [ScoreRow.trueWinB, ScoreRow.riskB, ScoreRow.wastedB,
      Bool.and_eq_true, decide_eq_true_eq] at h1 h2 <;>
    linarith [h1.1, h2.2, h1.2, h2.1]

/-- C3 amended: the three scorecard criteria are computed independently
(each by its own filter, not as a cascade), but they are pairwise
mutually exclusive — no row satisfies two of them at once, since each
fixes a different sign of `Pos_Delta`. -/
theorem C3_amended_pairwise_exclusive (r : ScoreRow) :
    ¬(r.trueWinB = true ∧ r.riskB = true) ∧
    ¬(r.trueWinB = true ∧ r.wastedB = true) ∧
    ¬(r.riskB = true ∧ r.wastedB = true) := by
  refine ⟨fun ⟨h1, h2⟩ => ?_, fun ⟨h1, h2⟩ => ?_, fun ⟨h1, h2⟩ => ?_⟩ <;>
    simp only [ScoreRow.trueWinB, ScoreRow.riskB, ScoreRow.wastedB,
      Bool.and_eq_true, decide_eq_true_eq] at h1 h2 <;>
    linarith [h1.1, h2.2, h1.2, h2.1]

/-- C3 amended witness: pairwise exclusivity at a concrete row
(clicks 10/20, impressions 100/200, positions 5/3). -/
theorem C3_amended_pairwise_exclusive_witness :
    ¬((⟨10, 100, 5, 20, 200, 3⟩ : ScoreRow).trueWinB = true ∧
      (⟨10, 100, 5, 20, 200, 3⟩ : ScoreRow).riskB = true) ∧
    ¬((⟨10, 100, 5, 20, 200, 3⟩ : ScoreRow).trueWinB = true ∧
      (⟨10, 100, 5, 20, 200, 3⟩ : ScoreRow).wastedB = true) ∧
    ¬((⟨10, 100, 5, 20, 200, 3⟩ : ScoreRow).riskB = true ∧
      (⟨10, 100, 5, 20, 200, 3⟩ : ScoreRow).wastedB = true) :=
  C3_amended_pairwise_exclusive ⟨10, 100, 5, 20, 200, 3⟩

/-- The guarded count-ratio used by the tier summary metrics
(`src/app.py` lines 469 and 472):
`(count / total * 100) if total > 0 else 0`. -/
def ratio_guarded (count total : ℕ) : ℚ :=
  if total > 0 then (count : ℚ) / (total : ℚ) * 100 else 0

/-- With non-negative clicks and impressions the per-side CTR column is
either a finite non-negative number or `+inf`; the infinite case needs
positive clicks against zero impressions. -/
theorem queryCTR_num_or_inf {c i : ℚ} (hc : 0 ≤ c) (hi : 0 ≤ i) :
    (∃ x : ℚ, 0 ≤ x ∧ queryCTR c i = .num x) ∨
    (0 < c ∧ i = 0 ∧ queryCTR c i = .inf) := by
  unfold queryCTR PFloat.pdiv
  by_cases hiz : i = 0
  · by_cases hcz : c = 0
    · left
      exact ⟨0, le_refl 0, by simp [hiz, hcz, PFloat.pscale100, PFloat.fillna0]⟩
    · right
      have hcp : 0 < c := lt_of_le_of_ne hc (Ne.symm hcz)
      exact ⟨hcp, hiz, by simp [hiz, hcz, hcp, PFloat.pscale100, PFloat.fillna0]⟩
  · left
    refine ⟨c / i * 100, ?_, by simp [hiz, PFloat.pscale100, PFloat.fillna0]⟩
    have hip : 0 < i := lt_of_le_of_ne hi (Ne.symm hiz)
    positivity

/-- C4 counterexample: the claim promises every derived ratio is finite on
any input with `clicks ≥ 0` and `impressions ≥ 0`, but the per-side CTR
`(clicks / impressions * 100).fillna(0)` at clicks 5 and impressions 0 is
`+inf` — `fillna(0)` only replaces the NaN of `0/0`, not an infinity. -/
theorem C4_counterexample_inf_ctr :
    queryCTR 5 0 = PFloat.inf ∧ (queryCTR 5 0).isFinite = false := by
  norm_num [queryCTR, PFloat.pdiv, PFloat.pscale100, PFloat.fillna0, PFloat.isFinite]

/-- C4 amended: the zero-denominator guards hold wherever a side with
zero impressions also has zero clicks — then the per-side CTR is finite
and equals 0 on a zero-impression side; the phase-summary CTR and the
guarded count-ratios are zero on a zero denominator unconditionally. -/
theorem C4_amended_division_guards :
    (∀ clicks imps : ℚ, 0 ≤ clicks → 0 ≤ imps → (imps = 0 → clicks = 0) →
      (queryCTR clicks imps).isFinite = true ∧
      (imps = 0 → queryCTR clicks imps = .num 0)) ∧
    (∀ (pid : ℕ) (df : List GRow),
      (calculate_phase_metrics pid df).impressions = 0 →
      (calculate_phase_metrics pid df).ctr = 0) ∧
    (∀ count : ℕ, ratio_guarded count 0 = 0) := by
  refine ⟨fun clicks imps hc hi hz => ?_, fun pid df h => ?_, fun count => ?_⟩
  · rcases queryCTR_num_or_inf hc hi with ⟨x, hx, he⟩ | ⟨hcp, hiz, _⟩
    · refine ⟨by rw [he]; rfl, fun hiz => ?_⟩
      have : clicks = 0 := hz hiz
      simp [queryCTR, PFloat.pdiv, hiz, this, PFloat.pscale100, PFloat.fillna0]
    · exact absurd (hz hiz) (by linarith)
  · simp only [calculate_phase_metrics] at h ⊢
    rw [h]
    norm_num
  · simp [ratio_guarded]

/-- C4 amended witness: at clicks 0 and impressions 0 the per-side CTR is
the finite number 0. -/
theorem C4_amended_division_guards_witness :
    (queryCTR 0 0).isFinite = true ∧ ((0 : ℚ) = 0 → queryCTR 0 0 = .num 0) :=
  C4_amended_division_guards.1 0 0 le_rfl le_rfl (fun _ => rfl)

/-- C5 counterexample: on an empty phase the summary's mean-position
field is NaN (`Series.mean()` of no rows), not the zero-valued metric the
claim promises. -/
theorem C5_counterexample_empty_position_nan :
    (calculate_phase_metrics 1 []).position = PFloat.nan ∧
    (calculate_phase_metrics 1 []).position ≠ PFloat.num 0 := by
  constructor
  · rfl
  · simp [calculate_phase_metrics]

/-- C5 amended: when no rows exist for the requested phase the summary is
still returned without raising, with total clicks 0, total impressions 0
and CTR 0 — but the mean-position field is NaN (undefined), not 0. -/
theorem C5_amended_empty_phase_summary (pid : ℕ) (df : List GRow)
    (h : df.filter (fun r => r.phase = pid) = []) :
    (calculate_phase_metrics pid df).clicks = 0 ∧
    (calculate_phase_metrics pid df).impressions = 0 ∧
    (calculate_phase_metrics pid df).ctr = 0 ∧
    (calculate_phase_metrics pid df).position = PFloat.nan := by
  simp [calculate_phase_metrics, h]

/-- C5 amended witness: the empty-input summary evaluated at phase 1 of
the empty fact table. -/
theorem C5_amended_empty_phase_summary_witness :
    (calculate_phase_metrics 1 []).clicks = 0 ∧
    (calculate_phase_metrics 1 []).impressions = 0 ∧
    (calculate_phase_metrics 1 []).ctr = 0 ∧
    (calculate_phase_metrics 1 []).position = PFloat.nan :=
  C5_amended_empty_phase_summary 1 [] rfl

/-- C6: the query comparison is symmetric in structure — swapping the two
phase identifiers keeps the same outer-join key set, exchanges the
per-side aggregates, and negates `Click_Delta`, `Imp_Delta`, `Pos_Delta`
and `CTR_Delta` (the CTR delta through float negation, which also covers
the infinite cells). -/
theorem C6_compare_queries_symmetric (rows : List QRow) (pidA pidB : ℕ)
    (_hne : pidA ≠ pidB) :
    (∀ q, q ∈ mergedQueries rows pidA pidB ↔ q ∈ mergedQueries rows pidB pidA) ∧
    (∀ q,
      (mergedScoreRow rows pidB pidA q).clicksA = (mergedScoreRow rows pidA pidB q).clicksB ∧
      (mergedScoreRow rows pidB pidA q).impsA = (mergedScoreRow rows pidA pidB q).impsB ∧
      (mergedScoreRow rows pidB pidA q).posA = (mergedScoreRow rows pidA pidB q).posB ∧
      (mergedScoreRow rows pidB pidA q).clickDelta =
        -((mergedScoreRow rows pidA pidB q).clickDelta) ∧
      (mergedScoreRow rows pidB pidA q).impDelta =
        -((mergedScoreRow rows pidA pidB q).impDelta) ∧
      (mergedScoreRow rows pidB pidA q).pDelta =
        -((mergedScoreRow rows pidA pidB q).pDelta) ∧
      (mergedScoreRow rows pidB pidA q).ctrDelta =
        PFloat.pneg ((mergedScoreRow rows pidA pidB q).ctrDelta)) := by
  constructor
  · intro q
    simp only [mergedQueries, List.mem_dedup, List.mem_append]
    exact or_comm
  · intro q
    refine ⟨rfl, rfl, rfl, ?_, ?_, ?_, ?_⟩
    · simp only [mergedScoreRow, ScoreRow.clickDelta]
      ring
    · simp only [mergedScoreRow, ScoreRow.impDelta]
      ring
    · simp only [mergedScoreRow, ScoreRow.pDelta, posDelta]
      ring
    · simp only [mergedScoreRow, ScoreRow.ctrDelta, ScoreRow.ctrA, ScoreRow.ctrB]
      exact PFloat.psub_comm_neg _ _

/-- C6 witness: the key-set symmetry evaluated on the empty fact table
for the distinct phase pair (1, 2) at query "a". -/
theorem C6_compare_queries_symmetric_witness :
    ("a" ∈ mergedQueries [] 1 2 ↔ "a" ∈ mergedQueries [] 2 1) :=
  (C6_compare_queries_symmetric [] 1 2 (by decide)).1 "a"

/-- A list of non-positive rationals has a non-positive sum. -/
theorem list_sum_nonpos (l : List ℚ) (h : ∀ x ∈ l, x ≤ 0) : l.sum ≤ 0 := by
  induction l with
  | nil => simp
  | cons x t ih =>
    simp only [List.sum_cons]
    have hx := h x (List.mem_cons_self x t)
    have ht := ih (fun y hy => h y (List.mem_cons_of_mem x hy))
    linarith

/-- Over non-positive entries, the absolute value of the sum is the sum
of the absolute values. -/
theorem abs_sum_of_nonpos (l : List ℚ) (h : ∀ x ∈ l, x ≤ 0) :
    |l.sum| = (l.map (fun x => |x|)).sum := by
  induction l with
  | nil => simp
  | cons x t ih =>
    simp only [List.sum_cons, List.map_cons]
    have hx := h x (List.mem_cons_self x t)
    have ht := list_sum_nonpos t (fun y hy => h y (List.mem_cons_of_mem x hy))
    rw [abs_of_nonpos (by linarith), abs_of_nonpos hx,
      ← ih (fun y hy => h y (List.mem_cons_of_mem x hy)), abs_of_nonpos ht]
    ring

/-- `abs(mean(Pos_Delta))` over the True Win rows equals the spec's
`mean(|Pos_Delta|)`, because every True Win row has `Pos_Delta < 0`. -/
theorem avg_win_depth_eq_spec (rows : List ScoreRow) :
    avg_win_depth rows = specAvgWinDepth rows := by
  unfold avg_win_depth specAvgWinDepth
  split_ifs with h
  · rfl
  · have hall : ∀ x ∈ (trueWinRows rows).map ScoreRow.pDelta, x ≤ 0 := by
      intro x hx
      rcases List.mem_map.mp hx with ⟨r, hr, rfl⟩
      have hm := (List.mem_filter.mp (by simpa [trueWinRows] using hr)).2
      simp only [ScoreRow.trueWinB, Bool.and_eq_true, decide_eq_true_eq] at hm
      linarith [hm.1]
    rw [abs_div, abs_sum_of_nonpos _ hall,
      abs_of_nonneg (by positivity : (0 : ℚ) ≤ ((trueWinRows rows).length : ℚ)),
      List.map_map]
    rfl

/-- C7: the crash warning is flagged exactly when the average Risk depth
(mean `Pos_Delta` over Risk rows, 0 if none) exceeds the fixed constant
1.5 times the average True-Win depth (mean `|Pos_Delta|` over True Win
rows, 0 if none); with no Risk rows the flag is never raised. -/
theorem C7_crash_warning_rule (rows : List ScoreRow) :
    (is_crash rows = true ↔
      avg_loss_depth rows > (3 / 2 : ℚ) * specAvgWinDepth rows) ∧
    avg_win_depth rows = specAvgWinDepth rows ∧
    (riskRows rows = [] → is_crash rows = false) := by
  have heq := avg_win_depth_eq_spec rows
  have hw : 0 ≤ avg_win_depth rows := by
    unfold avg_win_depth
    split_ifs
    · exact le_refl 0
    · exact abs_nonneg _
  refine ⟨?_, heq, fun hr => ?_⟩
  · unfold is_crash
    rw [heq]
    simp [decide_eq_true_eq, mul_comm]
  · have hl : avg_loss_depth rows = 0 := by
      unfold avg_loss_depth
      rw [if_pos hr]
    unfold is_crash
    rw [hl]
    have h32 := mul_nonneg hw (by norm_num : (0 : ℚ) ≤ 3 / 2)
    simp only [decide_eq_false_iff_not, not_lt, gt_iff_lt]
    linarith

/-- C7 witness: on an empty scorecard population there are no Risk rows
and the crash flag is off. -/
theorem C7_crash_warning_rule_witness : is_crash [] = false :=
  (C7_crash_warning_rule []).2.2 rfl

/-- The four outcome categories partition every scorecard population:
each row is counted in exactly one category. -/
theorem countOutcome_partition (rows : List ScoreRow) :
    countOutcome rows .trueWin + countOutcome rows .risk +
    countOutcome rows .wasted + countOutcome rows .others = rows.length := by
  induction rows with
  | nil => rfl
  | cons r t ih =>
    cases h : categorize_outcome r <;>
      simp [countOutcome, List.filter_cons, h] at ih ⊢ <;>
      omega

/-- C8: the outcome categorization is the first-match evaluation of the
priority cascade True Win > Risk > Wasted > Others, every row receives
exactly one of the four categories (the counts partition the
population), and on a non-empty population the four category rates sum
to exactly 100%. -/
theorem C8_outcome_partition_rates :
    (∀ r : ScoreRow, categorize_outcome r = firstMatchOutcome r outcomeCascade) ∧
    (∀ rows : List ScoreRow, rows ≠ [] →
      countOutcome rows .trueWin + countOutcome rows .risk +
        countOutcome rows .wasted + countOutcome rows .others = rows.length ∧
      outcomeRate rows .trueWin + outcomeRate rows .risk +
        outcomeRate rows .wasted + outcomeRate rows .others = 100) := by
  constructor
  · intro r
    simp only [categorize_outcome, outcomeCascade, firstMatchOutcome]
  · intro rows hne
    have hp := countOutcome_partition rows
    refine ⟨hp, ?_⟩
    have hL : ((rows.length : ℚ)) ≠ 0 :=
      Nat.cast_ne_zero.mpr (fun h0 => hne (List.length_eq_zero.mp h0))
    have hcast : ((countOutcome rows .trueWin : ℚ) + countOutcome rows .risk +
        countOutcome rows .wasted + countOutcome rows .others) = (rows.length : ℚ) := by
      exact_mod_cast hp
    unfold outcomeRate
    field_simp
    linarith [hcast]

/-- C8 witness: the partition and the exact 100% rate sum on the
one-row population holding a single zero row. -/
theorem C8_outcome_partition_rates_witness :
    countOutcome [⟨0, 0, 0, 0, 0, 0⟩] .trueWin + countOutcome [⟨0, 0, 0, 0, 0, 0⟩] .risk +
      countOutcome [⟨0, 0, 0, 0, 0, 0⟩] .wasted + countOutcome [⟨0, 0, 0, 0, 0, 0⟩] .others =
      ([(⟨0, 0, 0, 0, 0, 0⟩ : ScoreRow)]).length ∧
    outcomeRate [⟨0, 0, 0, 0, 0, 0⟩] .trueWin + outcomeRate [⟨0, 0, 0, 0, 0, 0⟩] .risk +
      outcomeRate [⟨0, 0, 0, 0, 0, 0⟩] .wasted + outcomeRate [⟨0, 0, 0, 0, 0, 0⟩] .others = 100 :=
  C8_outcome_partition_rates.2 [⟨0, 0, 0, 0, 0, 0⟩] (by simp)

/-- Subtracting a cell from the finite 0 is float negation. -/
theorem psub_zero_left (x : PFloat) : PFloat.psub (.num 0) x = PFloat.pneg x := by
  cases x <;> simp [PFloat.psub, PFloat.pneg]

/-- C10: a query present in phase A but absent from phase B (its B side
zero-filled by the outer join) is categorized Others and matches none of
the three effectiveness criteria: `Imp_Delta = -Impressions_A ≤ 0` rules
out True Win and `CTR_Delta = -CTR_A` (never above 3) rules out Risk and
Wasted — a completely lost query is never reported as a Risk. -/
theorem C10_lost_query_is_others (rows : List QRow) (pidA pidB : ℕ) (q : String)
    (habs : qGroup rows pidB q = [])
    (hnn : ∀ r ∈ rows, 0 ≤ r.clicks ∧ 0 ≤ r.impressions) :
    categorize_outcome (mergedScoreRow rows pidA pidB q) = .others ∧
    (mergedScoreRow rows pidA pidB q).trueWinB = false ∧
    (mergedScoreRow rows pidA pidB q).riskB = false ∧
    (mergedScoreRow rows pidA pidB q).wastedB = false ∧
    (mergedScoreRow rows pidA pidB q).impDelta =
      -((mergedScoreRow rows pidA pidB q).impsA) ∧
    (mergedScoreRow rows pidA pidB q).ctrDelta =
      PFloat.pneg ((mergedScoreRow rows pidA pidB q).ctrA) := by
  have hcB : aggClicks rows pidB q = 0 := by simp [aggClicks, habs]
  have hiB : aggImps rows pidB q = 0 := by simp [aggImps, habs]
  have hmemA : ∀ r ∈ qGroup rows pidA q, r ∈ rows := by
    intro r hr
    simp only [qGroup, phaseRows, List.mem_filter] at hr
    exact hr.1.1
  have hcA : 0 ≤ aggClicks rows pidA q := by
    apply List.sum_nonneg
    intro x hx
    rcases List.mem_map.mp hx with ⟨r, hr, rfl⟩
    exact (hnn r (hmemA r hr)).1
  have hiA : 0 ≤ aggImps rows pidA q := by
    apply List.sum_nonneg
    intro x hx
    rcases List.mem_map.mp hx with ⟨r, hr, rfl⟩
    exact (hnn r (hmemA r hr)).2
  have hctrB : (mergedScoreRow rows pidA pidB q).ctrB = .num 0 := by
    simp [mergedScoreRow, ScoreRow.ctrB, hcB, hiB, queryCTR, PFloat.pdiv,
      PFloat.pscale100, PFloat.fillna0]
  have hctrA : (mergedScoreRow rows pidA pidB q).ctrA =
      queryCTR (aggClicks rows pidA q) (aggImps rows pidA q) := rfl
  have hctrD : (mergedScoreRow rows pidA pidB q).ctrDelta =
      PFloat.pneg ((mergedScoreRow rows pidA pidB q).ctrA) := by
    rw [ScoreRow.ctrDelta, hctrB, psub_zero_left]
  have himpD : (mergedScoreRow rows pidA pidB q).impDelta =
      -((mergedScoreRow rows pidA pidB q).impsA) := by
    simp [mergedScoreRow, ScoreRow.impDelta, hiB]
  have hgt : PFloat.pgtQ ((mergedScoreRow rows pidA pidB q).ctrDelta) 3 = false := by
    rw [hctrD, hctrA]
    rcases queryCTR_num_or_inf hcA hiA with ⟨x, hx, he⟩ | ⟨_, _, he⟩
    · rw [he]
      simp only [PFloat.pneg, PFloat.pgtQ, decide_eq_false_iff_not, not_lt]
      linarith
    · rw [he]
      rfl
  have htw : (mergedScoreRow rows pidA pidB q).trueWinB = false := by
    simp only [ScoreRow.trueWinB, himpD, Bool.and_eq_false_iff,
      decide_eq_false_iff_not, not_lt]
    right
    have harw : (mergedScoreRow rows pidA pidB q).impsA = aggImps rows pidA q := rfl
    rw [harw]
    linarith
  have hrisk : (mergedScoreRow rows pidA pidB q).riskB = false := by
    simp [ScoreRow.riskB, hgt]
  have hwa : (mergedScoreRow rows pidA pidB q).wastedB = false := by
    simp [ScoreRow.wastedB, hgt]
  exact ⟨by simp [categorize_outcome, htw, hrisk, hwa], htw, hrisk, hwa, himpD, hctrD⟩

/-- C10 witness: the query "a" lives only in phase 1 of a one-row fact
table; compared against phase 2 it lands in Others. -/
theorem C10_lost_query_is_others_witness :
    categorize_outcome (mergedScoreRow [⟨1, "a", 10, 100, 5⟩] 1 2 "a") = .others :=
  (C10_lost_query_is_others [⟨1, "a", 10, 100, 5⟩] 1 2 "a" rfl
    (by
      intro r hr
      simp only [List.mem_singleton] at hr
      subst hr
      exact ⟨by norm_num, by norm_num⟩)).1
